import Mathlib

/-!
Shallow embedding of the kalarand isometric game client and of its offline
3D-to-2D asset pipeline, with proofs of the specified properties.

JavaScript numbers are embedded as exact rationals (`ℚ`); JS `Map` objects
are embedded as association lists with insertion-order `set` semantics.
-/

namespace IsometricUtils

/-- Coordinate pair with rational components (embeds the JS number pair). -/
@[ext]
structure Coordinate where
  x : ℚ
  y : ℚ
deriving DecidableEq

def TILE_WIDTH : ℚ := 32

def TILE_HEIGHT : ℚ := 16

def TILE_WIDTH_HALF : ℚ := TILE_WIDTH / 2

def TILE_HEIGHT_HALF : ℚ := TILE_HEIGHT / 2

def TILE_DEPTH : ℚ := TILE_HEIGHT_HALF

/-- Embeds `worldToScreen` from IsometricUtils. -/
def worldToScreen (world : Coordinate) : Coordinate :=
  { x := (world.x - world.y) * TILE_WIDTH_HALF
    y := (world.x + world.y) * TILE_HEIGHT_HALF }

/-- Embeds `screenToWorld` from IsometricUtils. -/
def screenToWorld (screen : Coordinate) : Coordinate :=
  { x := (screen.x / TILE_WIDTH_HALF + screen.y / TILE_HEIGHT_HALF) / 2
    y := (screen.y / TILE_HEIGHT_HALF - screen.x / TILE_WIDTH_HALF) / 2 }

/-- Embeds `calculateDepth` from IsometricUtils. -/
def calculateDepth (world : Coordinate) (height : ℚ) : ℚ :=
  (world.x + world.y) * 1000 + height

end IsometricUtils

namespace IsometricUtils

/-- C1: for every world coordinate `w` with rational components,
`screenToWorld (worldToScreen w) = w` exactly (hence in particular within any
floating-point tolerance), where `worldToScreen` maps `(x, y)` to
`((x−y)·(TILE_WIDTH/2), (x+y)·(TILE_HEIGHT/2))` and `screenToWorld` is its
algebraic inverse. -/
theorem screenToWorld_worldToScreen_roundTrip (w : Coordinate) :
    screenToWorld (worldToScreen w) = w := by
  cases w with
  | mk x y =>
    ext
    · show ((x - y) * TILE_WIDTH_HALF / TILE_WIDTH_HALF +
        (x + y) * TILE_HEIGHT_HALF / TILE_HEIGHT_HALF) / 2 = x
      rw [TILE_WIDTH_HALF, TILE_HEIGHT_HALF, TILE_WIDTH, TILE_HEIGHT]
      ring
    · show ((x + y) * TILE_HEIGHT_HALF / TILE_HEIGHT_HALF -
        (x - y) * TILE_WIDTH_HALF / TILE_WIDTH_HALF) / 2 = y
      rw [TILE_WIDTH_HALF, TILE_HEIGHT_HALF, TILE_WIDTH, TILE_HEIGHT]
      ring

/-- C1 witness: the round trip at the concrete world coordinate (3, 7). -/
theorem screenToWorld_worldToScreen_roundTrip_witness :
    screenToWorld (worldToScreen ⟨3, 7⟩) = ⟨3, 7⟩ :=
  screenToWorld_worldToScreen_roundTrip ⟨3, 7⟩

/-- C2 counterexample: as stated — quantifying over all heights — the claim
that a tile with larger `x+y` always receives a larger depth is false: the
tile (0,0) at height 2000 receives depth 2000, strictly more than the depth
1000 of tile (1,0) at height 0, although its coordinate sum is smaller. -/
theorem calculateDepth_crossSum_counterexample :
    (0 : ℚ) + 0 < 1 + 0 ∧
    calculateDepth ⟨0, 0⟩ 2000 = 2000 ∧
    calculateDepth ⟨1, 0⟩ 0 = 1000 ∧
    ¬ calculateDepth ⟨0, 0⟩ 2000 < calculateDepth ⟨1, 0⟩ 0 := by
  refine ⟨by norm_num, ?_, ?_, ?_⟩
  · norm_num [calculateDepth]
  · norm_num [calculateDepth]
  · norm_num [calculateDepth]

/-- C2 amended: `calculateDepth world height = (x+y)·1000 + height`; it is
monotonically non-decreasing in `x+y` for a fixed height and, for a fixed
coordinate sum, monotonically non-decreasing in height; and for integer tile
coordinates with heights restricted to `[0, 1000)` — the intended height
range, below the 1000 multiplier — a tile with larger `x+y` always receives
a strictly larger depth, the height term only breaking ties among equal
sums. -/
theorem calculateDepth_props :
    (∀ (w : Coordinate) (h : ℚ), calculateDepth w h = (w.x + w.y) * 1000 + h) ∧
    (∀ (w1 w2 : Coordinate) (h : ℚ), w1.x + w1.y ≤ w2.x + w2.y →
      calculateDepth w1 h ≤ calculateDepth w2 h) ∧
    (∀ (w : Coordinate) (h1 h2 : ℚ), h1 ≤ h2 →
      calculateDepth w h1 ≤ calculateDepth w h2) ∧
    (∀ (x1 y1 x2 y2 : ℤ) (h1 h2 : ℚ), 0 ≤ h1 → h1 < 1000 → 0 ≤ h2 → h2 < 1000 →
      x1 + y1 < x2 + y2 →
      calculateDepth ⟨(x1 : ℚ), (y1 : ℚ)⟩ h1 < calculateDepth ⟨(x2 : ℚ), (y2 : ℚ)⟩ h2) := by
  refine ⟨fun w h => rfl, ?_, ?_, ?_⟩
  · intro w1 w2 h hle
    simp only [calculateDepth]
    nlinarith
  · intro w h1 h2 hle
    simp only [calculateDepth]
    linarith
  · intro x1 y1 x2 y2 h1 h2 h1nn h1lt h2nn h2lt hsum
    simp only [calculateDepth]
    have hstep : x1 + y1 + 1 ≤ x2 + y2 := hsum
    have hq : ((x1 : ℚ) + y1) + 1 ≤ (x2 : ℚ) + y2 := by exact_mod_cast hstep
    nlinarith

/-- C2 witness: the amended cross-sum dominance at concrete inputs — tile
(0,0) at height 5 draws strictly below tile (1,0) at height 0. -/
theorem calculateDepth_props_witness :
    calculateDepth ⟨0, 0⟩ 5 < calculateDepth ⟨1, 0⟩ 0 :=
  calculateDepth_props.2.2.2 0 0 1 0 5 0 (by norm_num) (by norm_num)
    (by norm_num) (by norm_num) (by norm_num)

end IsometricUtils

/-- Embeds the `Camera` class state (world/Camera.ts). -/
structure Camera where
  target : IsometricUtils.Coordinate
  speed : ℚ
  zoom : ℚ
  minZoom : ℚ
  maxZoom : ℚ
  zoomSpeed : ℚ
  smoothing : ℚ
  nextTarget : IsometricUtils.Coordinate
  nextZoom : ℚ
  minX : ℚ
  minY : ℚ
  maxX : ℚ
  maxY : ℚ
deriving DecidableEq

/-- Embeds the `Camera` constructor with its field initializers. -/
def Camera.init (worldWidth worldHeight : ℚ) : Camera :=
  { target := ⟨worldWidth / 2, worldHeight / 2⟩
    speed := 3 / 10
    zoom := 2
    minZoom := 1
    maxZoom := 4
    zoomSpeed := 1
    smoothing := 3 / 20
    nextTarget := ⟨worldWidth / 2, worldHeight / 2⟩
    nextZoom := 2
    minX := 0
    minY := 0
    maxX := worldWidth - 1
    maxY := worldHeight - 1 }

/-- Embeds `Camera.setNextTarget`: clamp into bounds and store as goal. -/
def Camera.setNextTarget (c : Camera) (worldX worldY : ℚ) : Camera :=
  { c with nextTarget :=
      ⟨max c.minX (min c.maxX worldX), max c.minY (min c.maxY worldY)⟩ }

/-- Embeds `Camera.move`: relative `setNextTarget` against the current goal. -/
def Camera.move (c : Camera) (deltaX deltaY : ℚ) : Camera :=
  c.setNextTarget (c.nextTarget.x + deltaX) (c.nextTarget.y + deltaY)

/-- JS `Math.round` on a finite number: round half toward positive infinity. -/
def roundJS (q : ℚ) : ℤ := ⌊q + 1 / 2⌋

/-- Embeds `Camera.setZoom`: round to an integer, clamp to the zoom range. -/
def Camera.setZoom (c : Camera) (zoom : ℚ) : Camera :=
  { c with nextZoom := max c.minZoom (min c.maxZoom ((roundJS zoom : ℤ) : ℚ)) }

/-- Embeds `Camera.zoomIn`. -/
def Camera.zoomIn (c : Camera) : Camera :=
  c.setZoom (c.nextZoom + 1)

/-- Embeds `Camera.zoomOut`. -/
def Camera.zoomOut (c : Camera) : Camera :=
  c.setZoom (c.nextZoom - 1)

/-- Embeds `Camera.update`: one exponential smoothing step, snapping exactly
to the goal when all three pre-step deltas are below the thresholds. -/
def Camera.update (c : Camera) : Camera :=
  let dx := c.nextTarget.x - c.target.x
  let dy := c.nextTarget.y - c.target.y
  let dz := c.nextZoom - c.zoom
  let moved : Camera :=
    { c with
      target := ⟨c.target.x + dx * c.smoothing, c.target.y + dy * c.smoothing⟩
      zoom := c.zoom + dz * c.smoothing }
  if |dx| < 1 / 1000 ∧ |dy| < 1 / 1000 ∧ |dz| < 1 / 100 then
    { moved with target := c.nextTarget, zoom := c.nextZoom }
  else
    moved

/-- Embeds `Camera.snapToNextTarget`. -/
def Camera.snapToNextTarget (c : Camera) : Camera :=
  { c with target := c.nextTarget, zoom := c.nextZoom }

/-- The pre-step x-delta `nextTarget.x − target.x` of a camera state. -/
def Camera.dX (c : Camera) : ℚ := c.nextTarget.x - c.target.x

/-- The pre-step y-delta `nextTarget.y − target.y` of a camera state. -/
def Camera.dY (c : Camera) : ℚ := c.nextTarget.y - c.target.y

/-- The pre-step zoom delta `nextZoom − zoom` of a camera state. -/
def Camera.dZ (c : Camera) : ℚ := c.nextZoom - c.zoom

lemma Camera.update_nextTarget (c : Camera) : c.update.nextTarget = c.nextTarget := by
  simp only [Camera.update]
  split <;> rfl

lemma Camera.update_nextZoom (c : Camera) : c.update.nextZoom = c.nextZoom := by
  simp only [Camera.update]
  split <;> rfl

lemma Camera.update_smoothing (c : Camera) : c.update.smoothing = c.smoothing := by
  simp only [Camera.update]
  split <;> rfl

lemma Camera.update_dX (c : Camera) :
    c.update.dX = 0 ∨ c.update.dX = (1 - c.smoothing) * c.dX := by
  simp only [Camera.update, Camera.dX]
  split
  · left
    simp
  · right
    ring

lemma Camera.update_dY (c : Camera) :
    c.update.dY = 0 ∨ c.update.dY = (1 - c.smoothing) * c.dY := by
  simp only [Camera.update, Camera.dY]
  split
  · left
    simp
  · right
    ring

lemma Camera.update_dZ (c : Camera) :
    c.update.dZ = 0 ∨ c.update.dZ = (1 - c.smoothing) * c.dZ := by
  simp only [Camera.update, Camera.dZ]
  split
  · left
    simp
  · right
    ring

lemma Camera.update_absdX (c : Camera) :
    |c.update.dX| ≤ |1 - c.smoothing| * |c.dX| := by
  rcases c.update_dX with h | h
  · rw [h, abs_zero]
    positivity
  · rw [h, abs_mul]

lemma Camera.update_absdY (c : Camera) :
    |c.update.dY| ≤ |1 - c.smoothing| * |c.dY| := by
  rcases c.update_dY with h | h
  · rw [h, abs_zero]
    positivity
  · rw [h, abs_mul]

lemma Camera.update_absdZ (c : Camera) :
    |c.update.dZ| ≤ |1 - c.smoothing| * |c.dZ| := by
  rcases c.update_dZ with h | h
  · rw [h, abs_zero]
    positivity
  · rw [h, abs_mul]

lemma Camera.iterate_smoothing (c : Camera) (n : ℕ) :
    (Camera.update^[n] c).smoothing = c.smoothing := by
  induction n with
  | zero => rfl
  | succ n ih => rw [Function.iterate_succ_apply', Camera.update_smoothing, ih]

lemma Camera.iterate_nextTarget (c : Camera) (n : ℕ) :
    (Camera.update^[n] c).nextTarget = c.nextTarget := by
  induction n with
  | zero => rfl
  | succ n ih => rw [Function.iterate_succ_apply', Camera.update_nextTarget, ih]

lemma Camera.iterate_nextZoom (c : Camera) (n : ℕ) :
    (Camera.update^[n] c).nextZoom = c.nextZoom := by
  induction n with
  | zero => rfl
  | succ n ih => rw [Function.iterate_succ_apply', Camera.update_nextZoom, ih]

lemma Camera.iterate_absdX (c : Camera) (hsm : c.smoothing = 3 / 20) (n : ℕ) :
    |(Camera.update^[n] c).dX| ≤ (17 / 20) ^ n * |c.dX| := by
  induction n with
  | zero => simp
  | succ n ih =>
    rw [Function.iterate_succ_apply']
    calc |(Camera.update^[n] c).update.dX|
        ≤ |1 - (Camera.update^[n] c).smoothing| * |(Camera.update^[n] c).dX| :=
          Camera.update_absdX _
      _ = (17 / 20) * |(Camera.update^[n] c).dX| := by
          rw [Camera.iterate_smoothing c n, hsm]
          norm_num
      _ ≤ (17 / 20) * ((17 / 20) ^ n * |c.dX|) :=
          mul_le_mul_of_nonneg_left ih (by norm_num)
      _ = (17 / 20) ^ (n + 1) * |c.dX| := by ring

lemma Camera.iterate_absdY (c : Camera) (hsm : c.smoothing = 3 / 20) (n : ℕ) :
    |(Camera.update^[n] c).dY| ≤ (17 / 20) ^ n * |c.dY| := by
  induction n with
  | zero => simp
  | succ n ih =>
    rw [Function.iterate_succ_apply']
    calc |(Camera.update^[n] c).update.dY|
        ≤ |1 - (Camera.update^[n] c).smoothing| * |(Camera.update^[n] c).dY| :=
          Camera.update_absdY _
      _ = (17 / 20) * |(Camera.update^[n] c).dY| := by
          rw [Camera.iterate_smoothing c n, hsm]
          norm_num
      _ ≤ (17 / 20) * ((17 / 20) ^ n * |c.dY|) :=
          mul_le_mul_of_nonneg_left ih (by norm_num)
      _ = (17 / 20) ^ (n + 1) * |c.dY| := by ring

lemma Camera.iterate_absdZ (c : Camera) (hsm : c.smoothing = 3 / 20) (n : ℕ) :
    |(Camera.update^[n] c).dZ| ≤ (17 / 20) ^ n * |c.dZ| := by
  induction n with
  | zero => simp
  | succ n ih =>
    rw [Function.iterate_succ_apply']
    calc |(Camera.update^[n] c).update.dZ|
        ≤ |1 - (Camera.update^[n] c).smoothing| * |(Camera.update^[n] c).dZ| :=
          Camera.update_absdZ _
      _ = (17 / 20) * |(Camera.update^[n] c).dZ| := by
          rw [Camera.iterate_smoothing c n, hsm]
          norm_num
      _ ≤ (17 / 20) * ((17 / 20) ^ n * |c.dZ|) :=
          mul_le_mul_of_nonneg_left ih (by norm_num)
      _ = (17 / 20) ^ (n + 1) * |c.dZ| := by ring

lemma Camera.update_snap (c : Camera)
    (hx : |c.dX| < 1 / 1000) (hy : |c.dY| < 1 / 1000) (hz : |c.dZ| < 1 / 100) :
    c.update.target = c.nextTarget ∧ c.update.zoom = c.nextZoom := by
  unfold Camera.dX at hx
  unfold Camera.dY at hy
  unfold Camera.dZ at hz
  simp only [Camera.update]
  rw [if_pos ⟨hx, hy, hz⟩]
  exact ⟨rfl, rfl⟩

lemma exists_pow_mul_lt (M ε : ℚ) (hM : 0 ≤ M) (hε : 0 < ε) :
    ∃ n : ℕ, ∀ m : ℕ, n ≤ m → (17 / 20 : ℚ) ^ m * M < ε := by
  have hM1 : (0 : ℚ) < M + 1 := by linarith
  obtain ⟨n, hn⟩ := exists_pow_lt_of_lt_one (div_pos hε hM1) (by norm_num : (17 / 20 : ℚ) < 1)
  refine ⟨n, fun m hm => ?_⟩
  have h1 : (17 / 20 : ℚ) ^ m ≤ (17 / 20) ^ n :=
    pow_le_pow_of_le_one (by norm_num) (by norm_num) hm
  have h2 : (17 / 20 : ℚ) ^ m * M ≤ (17 / 20) ^ n * (M + 1) := by
    have := pow_nonneg (by norm_num : (0 : ℚ) ≤ 17 / 20) n
    nlinarith
  have h3 : (17 / 20 : ℚ) ^ n * (M + 1) < (ε / (M + 1)) * (M + 1) :=
    mul_lt_mul_of_pos_right hn hM1
  have h4 : (ε / (M + 1)) * (M + 1) = ε := div_mul_cancel₀ ε (ne_of_gt hM1)
  linarith

lemma Camera.exists_iterate_exact (c : Camera) (hsm : c.smoothing = 3 / 20) :
    ∃ n : ℕ, (Camera.update^[n] c).target = c.nextTarget ∧
      (Camera.update^[n] c).zoom = c.nextZoom := by
  obtain ⟨n1, h1⟩ := exists_pow_mul_lt |c.dX| (1 / 1000) (abs_nonneg _) (by norm_num)
  obtain ⟨n2, h2⟩ := exists_pow_mul_lt |c.dY| (1 / 1000) (abs_nonneg _) (by norm_num)
  obtain ⟨n3, h3⟩ := exists_pow_mul_lt |c.dZ| (1 / 100) (abs_nonneg _) (by norm_num)
  have hn1 : n1 ≤ max n1 (max n2 n3) := le_max_left _ _
  have hn2 : n2 ≤ max n1 (max n2 n3) := le_trans (le_max_left _ _) (le_max_right _ _)
  have hn3 : n3 ≤ max n1 (max n2 n3) := le_trans (le_max_right _ _) (le_max_right _ _)
  have hx : |(Camera.update^[max n1 (max n2 n3)] c).dX| < 1 / 1000 :=
    lt_of_le_of_lt (Camera.iterate_absdX c hsm _) (h1 _ hn1)
  have hy : |(Camera.update^[max n1 (max n2 n3)] c).dY| < 1 / 1000 :=
    lt_of_le_of_lt (Camera.iterate_absdY c hsm _) (h2 _ hn2)
  have hz : |(Camera.update^[max n1 (max n2 n3)] c).dZ| < 1 / 100 :=
    lt_of_le_of_lt (Camera.iterate_absdZ c hsm _) (h3 _ hn3)
  obtain ⟨ht, hzm⟩ := Camera.update_snap _ hx hy hz
  refine ⟨max n1 (max n2 n3) + 1, ?_, ?_⟩
  · rw [Function.iterate_succ_apply', ht, Camera.iterate_nextTarget]
  · rw [Function.iterate_succ_apply', hzm, Camera.iterate_nextZoom]

lemma Camera.update_contract_x (c : Camera) (hsm : c.smoothing = 3 / 20)
    (hne : c.target.x ≠ c.nextTarget.x) :
    |c.nextTarget.x - c.update.target.x| < |c.nextTarget.x - c.target.x| := by
  have hdx : c.dX ≠ 0 := by
    unfold Camera.dX
    intro h
    have h2 : c.nextTarget.x = c.target.x := by linarith [sub_eq_zero.mp h]
    exact hne h2.symm
  have hgoal : |c.update.dX| < |c.dX| := by
    rcases c.update_dX with h | h
    · rw [h, abs_zero]
      exact abs_pos.mpr hdx
    · rw [h, abs_mul, hsm]
      have : |(1 : ℚ) - 3 / 20| = 17 / 20 := by norm_num
      rw [this]
      have habs : 0 < |c.dX| := abs_pos.mpr hdx
      linarith
  have he : c.update.dX = c.nextTarget.x - c.update.target.x := by
    unfold Camera.dX
    rw [Camera.update_nextTarget]
  rw [← he]
  exact hgoal

lemma Camera.update_contract_y (c : Camera) (hsm : c.smoothing = 3 / 20)
    (hne : c.target.y ≠ c.nextTarget.y) :
    |c.nextTarget.y - c.update.target.y| < |c.nextTarget.y - c.target.y| := by
  have hdy : c.dY ≠ 0 := by
    unfold Camera.dY
    intro h
    have h2 : c.nextTarget.y = c.target.y := by linarith [sub_eq_zero.mp h]
    exact hne h2.symm
  have hgoal : |c.update.dY| < |c.dY| := by
    rcases c.update_dY with h | h
    · rw [h, abs_zero]
      exact abs_pos.mpr hdy
    · rw [h, abs_mul, hsm]
      have : |(1 : ℚ) - 3 / 20| = 17 / 20 := by norm_num
      rw [this]
      have habs : 0 < |c.dY| := abs_pos.mpr hdy
      linarith
  have he : c.update.dY = c.nextTarget.y - c.update.target.y := by
    unfold Camera.dY
    rw [Camera.update_nextTarget]
  rw [← he]
  exact hgoal

lemma Camera.update_contract_z (c : Camera) (hsm : c.smoothing = 3 / 20)
    (hne : c.zoom ≠ c.nextZoom) :
    |c.nextZoom - c.update.zoom| < |c.nextZoom - c.zoom| := by
  have hdz : c.dZ ≠ 0 := by
    unfold Camera.dZ
    intro h
    have h2 : c.nextZoom = c.zoom := by linarith [sub_eq_zero.mp h]
    exact hne h2.symm
  have hgoal : |c.update.dZ| < |c.dZ| := by
    rcases c.update_dZ with h | h
    · rw [h, abs_zero]
      exact abs_pos.mpr hdz
    · rw [h, abs_mul, hsm]
      have : |(1 : ℚ) - 3 / 20| = 17 / 20 := by norm_num
      rw [this]
      have habs : 0 < |c.dZ| := abs_pos.mpr hdz
      linarith
  have he : c.update.dZ = c.nextZoom - c.update.zoom := by
    unfold Camera.dZ
    rw [Camera.update_nextZoom]
  rw [← he]
  exact hgoal

/-- C3: for every camera state with the code's smoothing factor 0.15 (the
field is initialized to 0.15 and never reassigned, so every reachable state
has it): each `update` call strictly decreases `|target − nextTarget|`
componentwise and `|zoom − nextZoom|` unless already equal; one
`snapToNextTarget` makes `target = nextTarget` and `zoom = nextZoom` exactly;
`update` snaps exactly when all three pre-step deltas satisfy
`|dx| < 0.001`, `|dy| < 0.001` and `|dz| < 0.01`; and after finitely many
`update` calls `target = nextTarget` and `zoom = nextZoom` exactly. -/
theorem camera_update_convergence (c : Camera) (hsm : c.smoothing = 3 / 20) :
    (c.target.x ≠ c.nextTarget.x →
      |c.nextTarget.x - c.update.target.x| < |c.nextTarget.x - c.target.x|) ∧
    (c.target.y ≠ c.nextTarget.y →
      |c.nextTarget.y - c.update.target.y| < |c.nextTarget.y - c.target.y|) ∧
    (c.zoom ≠ c.nextZoom →
      |c.nextZoom - c.update.zoom| < |c.nextZoom - c.zoom|) ∧
    (c.snapToNextTarget.target = c.nextTarget ∧ c.snapToNextTarget.zoom = c.nextZoom) ∧
    (|c.nextTarget.x - c.target.x| < 1 / 1000 → |c.nextTarget.y - c.target.y| < 1 / 1000 →
      |c.nextZoom - c.zoom| < 1 / 100 →
      c.update.target = c.nextTarget ∧ c.update.zoom = c.nextZoom) ∧
    (∃ n : ℕ, (Camera.update^[n] c).target = c.nextTarget ∧
      (Camera.update^[n] c).zoom = c.nextZoom) := by
  refine ⟨Camera.update_contract_x c hsm, Camera.update_contract_y c hsm,
    Camera.update_contract_z c hsm, ⟨rfl, rfl⟩, ?_, Camera.exists_iterate_exact c hsm⟩
  intro hx hy hz
  exact Camera.update_snap c hx hy hz

/-- C3 witness: the snap clause of `camera_update_convergence` applied to the
freshly constructed 100×100 camera, whose deltas are all zero. -/
theorem camera_update_convergence_witness :
    (Camera.init 100 100).update.target = (Camera.init 100 100).nextTarget ∧
    (Camera.init 100 100).update.zoom = (Camera.init 100 100).nextZoom :=
  (camera_update_convergence (Camera.init 100 100) rfl).2.2.2.2.1
    (by norm_num [Camera.init]) (by norm_num [Camera.init]) (by norm_num [Camera.init])

/-- One public camera call from the set the claim quantifies over. -/
inductive CameraOp where
  | setNextTarget (x y : ℚ)
  | move (dx dy : ℚ)
  | setZoom (z : ℚ)
  | zoomIn
  | zoomOut
deriving DecidableEq

/-- Dispatch one call to the corresponding `Camera` method. -/
def Camera.applyOp (c : Camera) : CameraOp → Camera
  | .setNextTarget x y => c.setNextTarget x y
  | .move dx dy => c.move dx dy
  | .setZoom z => c.setZoom z
  | .zoomIn => c.zoomIn
  | .zoomOut => c.zoomOut

/-- Apply a finite sequence of camera calls in order. -/
def Camera.applyOps (c : Camera) (ops : List CameraOp) : Camera :=
  ops.foldl Camera.applyOp c

/-- The state invariant maintained by every public camera call: `nextZoom`
is an integer in the zoom range, `nextTarget` lies within the bounds, and
the range and bound fields themselves are the constructor's values. -/
def CameraInv (c : Camera) : Prop :=
  (∃ k : ℤ, c.nextZoom = (k : ℚ)) ∧ 1 ≤ c.nextZoom ∧ c.nextZoom ≤ 4 ∧
  0 ≤ c.nextTarget.x ∧ c.nextTarget.x ≤ 99 ∧
  0 ≤ c.nextTarget.y ∧ c.nextTarget.y ≤ 99 ∧
  c.minZoom = 1 ∧ c.maxZoom = 4 ∧
  c.minX = 0 ∧ c.minY = 0 ∧ c.maxX = 99 ∧ c.maxY = 99

lemma cameraInv_init : CameraInv (Camera.init 100 100) := by
  refine ⟨⟨2, by norm_num [Camera.init]⟩, ?_, ?_, ?_, ?_, ?_, ?_, rfl, rfl, rfl, rfl, ?_, ?_⟩ <;>
    norm_num [Camera.init]

lemma cameraInv_setNextTarget (c : Camera) (hc : CameraInv c) (x y : ℚ) :
    CameraInv (c.setNextTarget x y) := by
  obtain ⟨hk, h1, h2, h3, h4, h5, h6, hmz, hMz, hx0, hy0, hx1, hy1⟩ := hc
  refine ⟨hk, h1, h2, ?_, ?_, ?_, ?_, hmz, hMz, hx0, hy0, hx1, hy1⟩ <;>
    simp only [Camera.setNextTarget, hx0, hy0, hx1, hy1]
  · exact le_max_left _ _
  · exact max_le (by norm_num) (min_le_left _ _)
  · exact le_max_left _ _
  · exact max_le (by norm_num) (min_le_left _ _)

lemma cameraInv_setZoom (c : Camera) (hc : CameraInv c) (z : ℚ) :
    CameraInv (c.setZoom z) := by
  obtain ⟨hk, h1, h2, h3, h4, h5, h6, hmz, hMz, hx0, hy0, hx1, hy1⟩ := hc
  refine ⟨⟨max 1 (min 4 (roundJS z)), ?_⟩, ?_, ?_, h3, h4, h5, h6, hmz, hMz, hx0, hy0, hx1, hy1⟩
  · simp only [Camera.setZoom, hmz, hMz]
    push_cast
    rfl
  · simp only [Camera.setZoom, hmz, hMz]
    exact le_max_left _ _
  · simp only [Camera.setZoom, hmz, hMz]
    exact max_le (by norm_num) (min_le_left _ _)

lemma cameraInv_applyOp (c : Camera) (hc : CameraInv c) (op : CameraOp) :
    CameraInv (c.applyOp op) := by
  cases op with
  | setNextTarget x y => exact cameraInv_setNextTarget c hc x y
  | move dx dy => exact cameraInv_setNextTarget c hc _ _
  | setZoom z => exact cameraInv_setZoom c hc z
  | zoomIn => exact cameraInv_setZoom c hc _
  | zoomOut => exact cameraInv_setZoom c hc _

lemma cameraInv_applyOps (c : Camera) (hc : CameraInv c) (ops : List CameraOp) :
    CameraInv (c.applyOps ops) := by
  induction ops generalizing c with
  | nil => exact hc
  | cons op rest ih => exact ih (c.applyOp op) (cameraInv_applyOp c hc op)

/-- C4: after any finite sequence of `setNextTarget`, `move`, `setZoom`,
`zoomIn` and `zoomOut` calls starting from the 100×100 constructor state
(bounds [0,99], zoom range [1,4]), `nextZoom` is an integer in `[1, 4]` and
`nextTarget` lies within `[0, 99]` on both axes — in particular any number of
composed `move` calls never escapes the bounds even when the unclamped sums
would. -/
theorem camera_ops_invariant (ops : List CameraOp) :
    (∃ k : ℤ, ((Camera.init 100 100).applyOps ops).nextZoom = (k : ℚ)) ∧
    1 ≤ ((Camera.init 100 100).applyOps ops).nextZoom ∧
    ((Camera.init 100 100).applyOps ops).nextZoom ≤ 4 ∧
    0 ≤ ((Camera.init 100 100).applyOps ops).nextTarget.x ∧
    ((Camera.init 100 100).applyOps ops).nextTarget.x ≤ 99 ∧
    0 ≤ ((Camera.init 100 100).applyOps ops).nextTarget.y ∧
    ((Camera.init 100 100).applyOps ops).nextTarget.y ≤ 99 := by
  obtain ⟨hk, h1, h2, h3, h4, h5, h6, _⟩ :=
    cameraInv_applyOps (Camera.init 100 100) cameraInv_init ops
  exact ⟨hk, h1, h2, h3, h4, h5, h6⟩

/-- Embeds the `Tile` record (WorldData.ts). -/
structure Tile where
  type : ℚ
  northCornerHeight : ℚ
  x : ℤ
  y : ℤ
deriving DecidableEq

/-- JS `Map.set` on an association list keyed by the coordinate pair
(the code keys by the template string of the two integers, which is injective
on integer pairs): replace in place when the key is present, append
otherwise. -/
def mapSet (m : List ((ℤ × ℤ) × Tile)) (k : ℤ × ℤ) (t : Tile) :
    List ((ℤ × ℤ) × Tile) :=
  if m.any (fun e => e.1 = k) then
    m.map (fun e => if e.1 = k then (k, t) else e)
  else
    m ++ [(k, t)]

/-- JS `Map.get` on the same association list. -/
def mapGet (m : List ((ℤ × ℤ) × Tile)) (k : ℤ × ℤ) : Option Tile :=
  (m.find? (fun e => e.1 = k)).map (fun e => e.2)

/-- Embeds the `WorldData` class state. -/
structure WorldData where
  tiles : List ((ℤ × ℤ) × Tile)
  width : ℤ
  height : ℤ
deriving DecidableEq

/-- Embeds `WorldData.getTile`. -/
def WorldData.getTile (w : WorldData) (x y : ℤ) : Option Tile :=
  mapGet w.tiles (x, y)

/-- Embeds `WorldData.setTile`: stamp the coordinates onto the tile, then
store it under the coordinate key. -/
def WorldData.setTile (w : WorldData) (x y : ℤ) (t : Tile) : WorldData :=
  { w with tiles := mapSet w.tiles (x, y) { t with x := x, y := y } }

/-- The cells visited by the generation loops in order (`y` outer, `x`
inner), each paired with the index of the `Math.random()` draw it consumes
(`y·width + x`). -/
def gridCells (width height : ℕ) : List (ℕ × (ℕ × ℕ)) :=
  (List.range height).flatMap
    (fun y => (List.range width).map (fun x => (y * width + x, (x, y))))

/-- The coordinate key of a visited cell, as stored in the tile map. -/
def cellKey (ic : ℕ × (ℕ × ℕ)) : ℤ × ℤ := ((ic.2.1 : ℤ), (ic.2.2 : ℤ))

/-- The tile built for a visited cell from its random draw. -/
def tileOf (rng : ℕ → ℚ) (ic : ℕ × (ℕ × ℕ)) : Tile :=
  { type := ((⌊rng ic.1 * 4⌋ : ℤ) : ℚ)
    northCornerHeight := 0
    x := (ic.2.1 : ℤ)
    y := (ic.2.2 : ℤ) }

/-- One iteration of the generation loop body. -/
def generateStep (rng : ℕ → ℚ) (acc : WorldData) (ic : ℕ × (ℕ × ℕ)) : WorldData :=
  acc.setTile (ic.2.1 : ℤ) (ic.2.2 : ℤ) (tileOf rng ic)

/-- Embeds `WorldData.generateRandom`, with the stream of `Math.random()`
draws passed explicitly: clear the tile map, then fill the declared
width×height grid with tiles of type `⌊draw·4⌋` and height 0. -/
def WorldData.generateRandom (w : WorldData) (rng : ℕ → ℚ) : WorldData :=
  (gridCells w.width.toNat w.height.toNat).foldl (generateStep rng)
    { w with tiles := [] }

lemma gridCells_length (w h : ℕ) : (gridCells w h).length = h * w := by
  unfold gridCells
  rw [List.length_flatMap]
  have hrep : (List.map (List.length ∘ fun y =>
      List.map (fun x => (y * w + x, x, y)) (List.range w)) (List.range h))
      = List.replicate h w := by
    rw [List.eq_replicate_iff]
    constructor
    · simp
    · intro b hb
      simp only [List.mem_map, Function.comp] at hb
      obtain ⟨y, _, rfl⟩ := hb
      simp
  rw [hrep, List.sum_replicate, smul_eq_mul]

lemma gridCells_mem_elim (w h : ℕ) (c : ℕ × (ℕ × ℕ)) (hc : c ∈ gridCells w h) :
    c.2.1 < w ∧ c.2.2 < h ∧ c.1 = c.2.2 * w + c.2.1 := by
  unfold gridCells at hc
  simp only [List.mem_flatMap, List.mem_map, List.mem_range] at hc
  obtain ⟨y, hy, x, hx, rfl⟩ := hc
  exact ⟨hx, hy, rfl⟩

lemma gridCells_mem_intro (w h x y : ℕ) (hx : x < w) (hy : y < h) :
    (y * w + x, (x, y)) ∈ gridCells w h := by
  unfold gridCells
  simp only [List.mem_flatMap, List.mem_map, List.mem_range]
  exact ⟨y, hy, x, hx, rfl⟩

lemma gridCells_nodup (w h : ℕ) : (gridCells w h).Nodup := by
  unfold gridCells
  rw [List.nodup_flatMap]
  constructor
  · intro y _
    refine List.Nodup.map ?_ (List.nodup_range w)
    intro a b hab
    have := congrArg (fun p => p.2.1) hab
    simpa using this
  · refine (List.pairwise_lt_range h).imp ?_
    intro y1 y2 hlt
    intro c hc1 hc2
    simp only [List.mem_map] at hc1 hc2
    obtain ⟨x1, _, rfl⟩ := hc1
    obtain ⟨x2, _, h2⟩ := hc2
    have : y1 = y2 := by
      have := congrArg (fun p => p.2.2) h2
      simpa using this.symm
    omega

lemma gridCells_pairwise_keys (w h : ℕ) :
    (gridCells w h).Pairwise (fun a b => cellKey a ≠ cellKey b) := by
  refine (gridCells_nodup w h).imp_of_mem ?_
  intro a b ha hb hne heq
  apply hne
  obtain ⟨hxa, hya, hia⟩ := gridCells_mem_elim w h a ha
  obtain ⟨hxb, hyb, hib⟩ := gridCells_mem_elim w h b hb
  have hx : a.2.1 = b.2.1 := by
    have h1 := congrArg Prod.fst heq
    simp only [cellKey] at h1
    exact_mod_cast h1
  have hy : a.2.2 = b.2.2 := by
    have h1 := congrArg Prod.snd heq
    simp only [cellKey] at h1
    exact_mod_cast h1
  have hi : a.1 = b.1 := by rw [hia, hib, hx, hy]
  have h2 : a.2 = b.2 := Prod.ext hx hy
  exact Prod.ext hi h2

lemma mapSet_fresh (m : List ((ℤ × ℤ) × Tile)) (k : ℤ × ℤ) (t : Tile)
    (h : ∀ e ∈ m, e.1 ≠ k) : mapSet m k t = m ++ [(k, t)] := by
  unfold mapSet
  rw [if_neg]
  simp only [List.any_eq_true, decide_eq_true_eq]
  push_neg
  exact h

lemma mapGet_of_key_mem (m : List ((ℤ × ℤ) × Tile)) (k : ℤ × ℤ)
    (h : ∃ e ∈ m, e.1 = k) : ∃ u, mapGet m k = some u ∧ (k, u) ∈ m := by
  unfold mapGet
  have hs : (m.find? (fun e => e.1 = k)).isSome := by
    rw [List.find?_isSome]
    obtain ⟨e, he, hek⟩ := h
    exact ⟨e, he, by simp [hek]⟩
  obtain ⟨e, he⟩ := Option.isSome_iff_exists.mp hs
  have hek : e.1 = k := by
    have := List.find?_some he
    simpa using this
  have hem : e ∈ m := List.mem_of_find?_eq_some he
  refine ⟨e.2, by rw [he]; rfl, ?_⟩
  rw [← hek]
  simpa using hem

lemma generate_fold_tiles (rng : ℕ → ℚ) (l : List (ℕ × (ℕ × ℕ))) (w0 : WorldData)
    (hfresh : ∀ ic ∈ l, ∀ e ∈ w0.tiles, e.1 ≠ cellKey ic)
    (hpw : l.Pairwise (fun a b => cellKey a ≠ cellKey b)) :
    (l.foldl (generateStep rng) w0).tiles
      = w0.tiles ++ l.map (fun ic => (cellKey ic, tileOf rng ic)) := by
  induction l generalizing w0 with
  | nil => simp
  | cons ic rest ih =>
    rw [List.foldl_cons]
    have hstep : (generateStep rng w0 ic).tiles
        = w0.tiles ++ [(cellKey ic, tileOf rng ic)] := by
      show mapSet w0.tiles (cellKey ic) _ = _
      rw [mapSet_fresh]
      · rfl
      · intro e he
        exact hfresh ic (List.mem_cons_self _ _) e he
    obtain ⟨hhead, hrest⟩ := List.pairwise_cons.mp hpw
    have hfresh2 : ∀ jc ∈ rest, ∀ e ∈ (generateStep rng w0 ic).tiles,
        e.1 ≠ cellKey jc := by
      intro jc hjc e he
      rw [hstep] at he
      rcases List.mem_append.mp he with hin | hin
      · exact hfresh jc (List.mem_cons_of_mem _ hjc) e hin
      · simp only [List.mem_singleton] at hin
        rw [hin]
        exact hhead jc hjc
    rw [ih (generateStep rng w0 ic) hfresh2 hrest, hstep, List.map_cons,
      List.append_assoc, List.singleton_append]

/-- C5: after one `generateRandom` call on a `WorldData` with declared width
and height 100 (with the `Math.random()` draws given as any stream of
rationals in `[0,1)`), the store holds exactly 10,000 tiles; the stored keys
are exactly the 10,000 grid coordinates; every coordinate in
`[0,100)×[0,100)` maps to a tile whose type is an integer in `[0,4)` and
whose `northCornerHeight` is 0; and the result is the same as generating
into an empty store — every previously stored tile has been replaced. -/
theorem generateRandom_fills_grid (w : WorldData) (rng : ℕ → ℚ)
    (hw : w.width = 100) (hh : w.height = 100)
    (hrng : ∀ i, 0 ≤ rng i ∧ rng i < 1) :
    ((w.generateRandom rng).tiles.length = 10000) ∧
    ((w.generateRandom rng).tiles.map Prod.fst = (gridCells 100 100).map cellKey) ∧
    (∀ x y : ℕ, x < 100 → y < 100 →
      ∃ t : Tile, (w.generateRandom rng).getTile (x : ℤ) (y : ℤ) = some t ∧
        (∃ k : ℤ, t.type = (k : ℚ)) ∧ 0 ≤ t.type ∧ t.type < 4 ∧
        t.northCornerHeight = 0 ∧ t.x = (x : ℤ) ∧ t.y = (y : ℤ)) ∧
    (w.generateRandom rng).tiles
      = (WorldData.generateRandom ⟨[], w.width, w.height⟩ rng).tiles := by
  have hchar : (w.generateRandom rng).tiles
      = (gridCells 100 100).map (fun ic => (cellKey ic, tileOf rng ic)) := by
    unfold WorldData.generateRandom
    rw [hw, hh]
    have h100 : (100 : ℤ).toNat = 100 := rfl
    rw [h100]
    exact generate_fold_tiles rng (gridCells 100 100) ⟨[], 100, 100⟩
      (fun ic _ e he => absurd he (List.not_mem_nil e))
      (gridCells_pairwise_keys 100 100)
  refine ⟨?_, ?_, ?_, ?_⟩
  · rw [hchar, List.length_map, gridCells_length]
  · rw [hchar, List.map_map]
    rfl
  · intro x y hx hy
    have hkeymem : ∃ e ∈ (w.generateRandom rng).tiles, e.1 = (((x : ℤ), (y : ℤ)) : ℤ × ℤ) := by
      rw [hchar]
      refine ⟨(cellKey (y * 100 + x, (x, y)), tileOf rng (y * 100 + x, (x, y))), ?_, rfl⟩
      exact List.mem_map_of_mem _ (gridCells_mem_intro 100 100 x y hx hy)
    obtain ⟨u, hget, humem⟩ := mapGet_of_key_mem _ _ hkeymem
    rw [hchar] at humem
    simp only [List.mem_map] at humem
    obtain ⟨ic, hicmem, hiceq⟩ := humem
    have hkey : cellKey ic = ((x : ℤ), (y : ℤ)) := congrArg Prod.fst hiceq
    have hu : u = tileOf rng ic := (congrArg Prod.snd hiceq).symm
    have hicx : (ic.2.1 : ℤ) = (x : ℤ) := congrArg Prod.fst hkey
    have hicy : (ic.2.2 : ℤ) = (y : ℤ) := congrArg Prod.snd hkey
    refine ⟨u, hget, ⟨⌊rng ic.1 * 4⌋, by rw [hu]; rfl⟩, ?_, ?_, by rw [hu]; rfl, ?_, ?_⟩
    · rw [hu]
      show (0 : ℚ) ≤ ((⌊rng ic.1 * 4⌋ : ℤ) : ℚ)
      have h0 : (0 : ℤ) ≤ ⌊rng ic.1 * 4⌋ := by
        apply Int.floor_nonneg.mpr
        have := (hrng ic.1).1
        positivity
      exact_mod_cast h0
    · rw [hu]
      show ((⌊rng ic.1 * 4⌋ : ℤ) : ℚ) < 4
      have h4 : ⌊rng ic.1 * 4⌋ < (4 : ℤ) := by
        apply Int.floor_lt.mpr
        have := (hrng ic.1).2
        push_cast
        linarith
      exact_mod_cast h4
    · rw [hu]
      exact hicx
    · rw [hu]
      exact hicy
  · rfl

/-- C5 witness: the theorem applied to a world with one stale stored tile
and the constant-zero random stream. -/
theorem generateRandom_fills_grid_witness :
    ((WorldData.generateRandom ⟨[(((5 : ℤ), (5 : ℤ)), ⟨9, 9, 5, 5⟩)], 100, 100⟩
      (fun _ => 0)).tiles.length = 10000) := by
  have h := generateRandom_fills_grid
    ⟨[(((5 : ℤ), (5 : ℤ)), ⟨9, 9, 5, 5⟩)], 100, 100⟩ (fun _ => 0) rfl rfl
    (fun i => by norm_num)
  exact h.1

namespace ThreeRenderer

/-- Three-component vector with rational components. -/
structure Vec3 where
  x : ℚ
  y : ℚ
  z : ℚ
deriving DecidableEq

/-- Axis-aligned bounding box, as computed by `Box3.setFromObject`. -/
structure Box3 where
  min : Vec3
  max : Vec3
deriving DecidableEq

/-- `Box3.getCenter`: the midpoint of the box. -/
def Box3.center (b : Box3) : Vec3 :=
  ⟨(b.min.x + b.max.x) / 2, (b.min.y + b.max.y) / 2, (b.min.z + b.max.z) / 2⟩

/-- `Box3.getSize`: the extent of the box on each axis. -/
def Box3.size (b : Box3) : Vec3 :=
  ⟨b.max.x - b.min.x, b.max.y - b.min.y, b.max.z - b.min.z⟩

/-- Tile footprint in whole tile units. -/
structure Footprint where
  x : ℤ
  y : ℤ
deriving DecidableEq

/-- The model state touched by `centerAndScaleModel`: its position, its
uniform scale factor, its world-space bounding box, and the `userData`
fields the function stores. -/
structure Model3D where
  position : Vec3
  scale : ℚ
  box : Box3
  baseFootprint : Option Footprint
  worldSize : Option (ℚ × ℚ)
deriving DecidableEq

/-- Embeds `getFootprintForAngle`: the base footprint of the currently
loaded model, or 1×1 when no model (or no stored footprint) is present; the
footprint is angle-invariant by design. -/
def getFootprintForAngle (loadedModel : Option Model3D) : Footprint :=
  match loadedModel with
  | none => ⟨1, 1⟩
  | some m =>
    match m.baseFootprint with
    | none => ⟨1, 1⟩
    | some fp => fp

/-- Embeds `centerAndScaleModel` (the current, footprint-based variant):
compute the bounding box, store `(max 1 ⌈sizeX⌉, max 1 ⌈sizeZ⌉)` as the base
footprint and `(sizeX, sizeZ)` as the world size, read the footprint for the
angle from the previously loaded model, re-center the model at the origin
and drop it so its lowest point sits at height 0. The model's scale is
never written. -/
def centerAndScaleModel (prevLoaded : Option Model3D) (model : Model3D) :
    Model3D × Footprint × (ℚ × ℚ) :=
  let box := model.box
  let center := box.center
  let size := box.size
  let tilesX : ℤ := max 1 ⌈size.x⌉
  let tilesY : ℤ := max 1 ⌈size.z⌉
  let model1 : Model3D :=
    { model with
      baseFootprint := some ⟨tilesX, tilesY⟩
      worldSize := some (size.x, size.z) }
  let currentFootprint := getFootprintForAngle prevLoaded
  let model2 : Model3D :=
    { model1 with
      position := ⟨model1.position.x - center.x,
        model1.position.y - center.y - box.min.y,
        model1.position.z - center.z⟩ }
  (model2, currentFootprint, (size.x, size.z))

/-- The model used in the end-to-end scenario: bounding box of size
(2.4, 1.1, 3.6) in (x, height, z), unit scale. -/
def exampleModel : Model3D :=
  { position := ⟨0, 0, 0⟩
    scale := 1
    box := ⟨⟨0, 0, 0⟩, ⟨12 / 5, 11 / 10, 18 / 5⟩⟩
    baseFootprint := none
    worldSize := none }

end ThreeRenderer

lemma ceil_sizeX_example : ⌈(12 / 5 - 0 : ℚ)⌉ = 3 := by
  norm_num [Int.ceil_eq_iff]

lemma ceil_sizeZ_example : ⌈(18 / 5 - 0 : ℚ)⌉ = 4 := by
  norm_num [Int.ceil_eq_iff]

/-- C6 counterexample: the code computes the target footprint with `ceil`,
not `round`: for the bounding box of size (2.4, 1.1, 3.6) the stored base
footprint is (3, 4), not (2, 4) as the claim states. -/
theorem footprint_round_counterexample :
    ((ThreeRenderer.centerAndScaleModel none ThreeRenderer.exampleModel).1).baseFootprint
        = some ⟨3, 4⟩ ∧
    ¬ ((ThreeRenderer.centerAndScaleModel none ThreeRenderer.exampleModel).1).baseFootprint
        = some ⟨2, 4⟩ := by
  constructor
  · simp only [ThreeRenderer.centerAndScaleModel, ThreeRenderer.exampleModel,
      ThreeRenderer.Box3.size, ceil_sizeX_example, ceil_sizeZ_example,
      Option.some.injEq, ThreeRenderer.Footprint.mk.injEq]
    omega
  · intro h
    simp only [ThreeRenderer.centerAndScaleModel, ThreeRenderer.exampleModel,
      ThreeRenderer.Box3.size, ceil_sizeX_example, ceil_sizeZ_example,
      Option.some.injEq, ThreeRenderer.Footprint.mk.injEq] at h
    omega

/-- C6 amended: the target footprint stored for a model is
`(max 1 ⌈sizeX⌉, max 1 ⌈sizeZ⌉)` — the ceiling of the bounding-box size,
clamped to a minimum of 1×1, rather than the rounding the claim states —
so both components are at least 1 and at least the corresponding box size;
for the bounding box of size (2.4, 1.1, 3.6) the target footprint is (3, 4). -/
theorem footprint_ceil_props (m : ThreeRenderer.Model3D) :
    (((ThreeRenderer.centerAndScaleModel none m).1).baseFootprint
        = some ⟨max 1 ⌈m.box.size.x⌉, max 1 ⌈m.box.size.z⌉⟩) ∧
    (∀ fp : ThreeRenderer.Footprint,
      ((ThreeRenderer.centerAndScaleModel none m).1).baseFootprint = some fp →
      1 ≤ fp.x ∧ 1 ≤ fp.y ∧ m.box.size.x ≤ (fp.x : ℚ) ∧ m.box.size.z ≤ (fp.y : ℚ)) ∧
    (((ThreeRenderer.centerAndScaleModel none ThreeRenderer.exampleModel).1).baseFootprint
        = some ⟨3, 4⟩) := by
  refine ⟨rfl, ?_, ?_⟩
  · intro fp hfp
    have heq : (⟨max 1 ⌈m.box.size.x⌉, max 1 ⌈m.box.size.z⌉⟩ : ThreeRenderer.Footprint)
        = fp := Option.some.inj hfp
    rw [← heq]
    refine ⟨le_max_left _ _, le_max_left _ _, ?_, ?_⟩
    · have hc : m.box.size.x ≤ (⌈m.box.size.x⌉ : ℚ) := Int.le_ceil _
      have hm : (⌈m.box.size.x⌉ : ℚ) ≤ ((max 1 ⌈m.box.size.x⌉ : ℤ) : ℚ) := by
        exact_mod_cast le_max_right (1 : ℤ) ⌈m.box.size.x⌉
      exact le_trans hc hm
    · have hc : m.box.size.z ≤ (⌈m.box.size.z⌉ : ℚ) := Int.le_ceil _
      have hm : (⌈m.box.size.z⌉ : ℚ) ≤ ((max 1 ⌈m.box.size.z⌉ : ℤ) : ℚ) := by
        exact_mod_cast le_max_right (1 : ℤ) ⌈m.box.size.z⌉
      exact le_trans hc hm
  · simp only [ThreeRenderer.centerAndScaleModel, ThreeRenderer.exampleModel,
      ThreeRenderer.Box3.size, ceil_sizeX_example, ceil_sizeZ_example,
      Option.some.injEq, ThreeRenderer.Footprint.mk.injEq]
    omega

/-- C6 witness: the footprint bounds clause applied to the scenario model. -/
theorem footprint_ceil_props_witness :
    1 ≤ (3 : ℤ) ∧ 1 ≤ (4 : ℤ) ∧
    (ThreeRenderer.exampleModel.box.size.x ≤ ((3 : ℤ) : ℚ)) ∧
    (ThreeRenderer.exampleModel.box.size.z ≤ ((4 : ℤ) : ℚ)) :=
  (footprint_ceil_props ThreeRenderer.exampleModel).2.1 ⟨3, 4⟩
    (footprint_ceil_props ThreeRenderer.exampleModel).2.2

/-- C7 counterexample: `centerAndScaleModel` never writes the model's scale:
for the scenario model with bounding box (2.4, 1.1, 3.6) and unit scale the
scale after the call is still 1, not the claimed
`min(2/2.4, 4/3.6) = 5/6 ≈ 0.833`. -/
theorem uniformScale_counterexample :
    ((ThreeRenderer.centerAndScaleModel none ThreeRenderer.exampleModel).1).scale = 1 ∧
    ((ThreeRenderer.centerAndScaleModel none ThreeRenderer.exampleModel).1).scale ≠ 5 / 6 := by
  constructor
  · rfl
  · intro h
    have h1 : ((ThreeRenderer.centerAndScaleModel none ThreeRenderer.exampleModel).1).scale
        = (1 : ℚ) := rfl
    rw [h1] at h
    norm_num at h

/-- C7 amended: the footprint-based `centerAndScaleModel` applies no scale at
all — the model's scale is returned unchanged — and no scaling is needed for
the no-overflow property: because the target footprint is the ceiling of the
bounding-box size clamped to at least 1×1, the unscaled bounding box already
fits within the target footprint on both horizontal axes. -/
theorem uniformScale_props (m : ThreeRenderer.Model3D) :
    (((ThreeRenderer.centerAndScaleModel none m).1).scale = m.scale) ∧
    (∀ fp : ThreeRenderer.Footprint,
      ((ThreeRenderer.centerAndScaleModel none m).1).baseFootprint = some fp →
      m.box.size.x * 1 ≤ (fp.x : ℚ) ∧ m.box.size.z * 1 ≤ (fp.y : ℚ)) := by
  refine ⟨rfl, ?_⟩
  intro fp hfp
  obtain ⟨-, -, hx, hz⟩ := (footprint_ceil_props m).2.1 fp hfp
  constructor
  · rw [mul_one]
    exact hx
  · rw [mul_one]
    exact hz

/-- C7 witness: the unscaled scenario bounding box fits its (3, 4) target
footprint on both horizontal axes. -/
theorem uniformScale_props_witness :
    (ThreeRenderer.exampleModel.box.size.x * 1 ≤ ((3 : ℤ) : ℚ)) ∧
    (ThreeRenderer.exampleModel.box.size.z * 1 ≤ ((4 : ℤ) : ℚ)) :=
  (uniformScale_props ThreeRenderer.exampleModel).2 ⟨3, 4⟩
    (footprint_ceil_props ThreeRenderer.exampleModel).2.2

/-- RGBA canvas abstracted to its alpha channel: `alpha y x` is the alpha
value of the pixel in column `x` of row `y`. -/
structure Canvas where
  width : ℕ
  height : ℕ
  alpha : ℕ → ℕ → ℕ

/-- The four scan accumulators of `cropCanvas`. -/
structure CropBounds where
  minX : ℕ
  minY : ℕ
  maxX : ℕ
  maxY : ℕ
deriving DecidableEq

/-- The pixels visited by the scan loops, row by row. -/
def pixelCoords (c : Canvas) : List (ℕ × ℕ) :=
  (List.range c.height).flatMap (fun y => (List.range c.width).map (fun x => (x, y)))

/-- One iteration of the bounds scan: widen the accumulators when the pixel
has positive alpha. -/
def cropStep (c : Canvas) (b : CropBounds) (p : ℕ × ℕ) : CropBounds :=
  if 0 < c.alpha p.2 p.1 then
    ⟨min b.minX p.1, min b.minY p.2, max b.maxX p.1, max b.maxY p.2⟩
  else b

/-- The bounds scan of `cropCanvas`, starting from
`minX = width, minY = height, maxX = 0, maxY = 0`. -/
def cropBounds (c : Canvas) : CropBounds :=
  (pixelCoords c).foldl (cropStep c) ⟨c.width, c.height, 0, 0⟩

/-- Embeds `cropCanvas`: scan for the bounding rectangle of pixels with
alpha above 0; when the scan is degenerate (`minX ≥ maxX` or `minY ≥ maxY`)
return the canvas unchanged, otherwise emit exactly the bounding rectangle
(the code comments: no padding, for pixel-perfect alignment). -/
def cropCanvas (c : Canvas) : Canvas :=
  let b := cropBounds c
  if b.maxX ≤ b.minX ∨ b.maxY ≤ b.minY then
    c
  else
    { width := b.maxX - b.minX + 1
      height := b.maxY - b.minY + 1
      alpha := fun y x => c.alpha (y + b.minY) (x + b.minX) }

/-- The output dimensions the claim describes: the bounding rectangle of the
pixels with positive alpha, padded by `pad` pixels on each side (clipped to
the canvas), or the original dimensions when no such pixel exists. This
definition follows the claim's words, for comparison with `cropCanvas`. -/
def claimCropDims (c : Canvas) (pad : ℕ) : ℕ × ℕ :=
  if (pixelCoords c).any (fun p => 0 < c.alpha p.2 p.1) then
    ((min (c.width - 1) ((cropBounds c).maxX + pad) - ((cropBounds c).minX - pad)) + 1,
     (min (c.height - 1) ((cropBounds c).maxY + pad) - ((cropBounds c).minY - pad)) + 1)
  else
    (c.width, c.height)

/-- A 10×10 canvas whose opaque pixels are exactly the 3×3 block with
`4 ≤ x ≤ 6` and `4 ≤ y ≤ 6`. -/
def exCanvas : Canvas :=
  { width := 10
    height := 10
    alpha := fun y x => if 4 ≤ x ∧ x ≤ 6 ∧ 4 ≤ y ∧ y ≤ 6 then 255 else 0 }

/-- A 10×10 canvas with a single opaque pixel at (2, 2). -/
def exCanvasOnePixel : Canvas :=
  { width := 10
    height := 10
    alpha := fun y x => if x = 2 ∧ y = 2 then 255 else 0 }

/-- A 10×10 canvas with no opaque pixel. -/
def exCanvasClear : Canvas :=
  { width := 10
    height := 10
    alpha := fun _ _ => 0 }

lemma pixelCoords_mem_intro (c : Canvas) (x y : ℕ)
    (hx : x < c.width) (hy : y < c.height) : (x, y) ∈ pixelCoords c := by
  unfold pixelCoords
  simp only [List.mem_flatMap, List.mem_map, List.mem_range]
  exact ⟨y, hy, x, hx, rfl⟩

lemma pixelCoords_mem_elim (c : Canvas) (p : ℕ × ℕ) (hp : p ∈ pixelCoords c) :
    p.1 < c.width ∧ p.2 < c.height := by
  unfold pixelCoords at hp
  simp only [List.mem_flatMap, List.mem_map, List.mem_range] at hp
  obtain ⟨y, hy, x, hx, rfl⟩ := hp
  exact ⟨hx, hy⟩

lemma cropFold_const (c : Canvas) (l : List (ℕ × ℕ)) (b : CropBounds)
    (h : ∀ p ∈ l, c.alpha p.2 p.1 = 0) : l.foldl (cropStep c) b = b := by
  induction l generalizing b with
  | nil => rfl
  | cons p rest ih =>
    rw [List.foldl_cons]
    have hstep : cropStep c b p = b := by
      unfold cropStep
      rw [if_neg]
      rw [h p (List.mem_cons_self _ _)]
      omega
    rw [hstep]
    exact ih b (fun q hq => h q (List.mem_cons_of_mem _ hq))

lemma cropFold_mono (c : Canvas) (l : List (ℕ × ℕ)) (b : CropBounds) :
    (l.foldl (cropStep c) b).minX ≤ b.minX ∧ (l.foldl (cropStep c) b).minY ≤ b.minY ∧
    b.maxX ≤ (l.foldl (cropStep c) b).maxX ∧ b.maxY ≤ (l.foldl (cropStep c) b).maxY := by
  induction l generalizing b with
  | nil => exact ⟨le_refl _, le_refl _, le_refl _, le_refl _⟩
  | cons p rest ih =>
    rw [List.foldl_cons]
    obtain ⟨h1, h2, h3, h4⟩ := ih (cropStep c b p)
    have hstep : (cropStep c b p).minX ≤ b.minX ∧ (cropStep c b p).minY ≤ b.minY ∧
        b.maxX ≤ (cropStep c b p).maxX ∧ b.maxY ≤ (cropStep c b p).maxY := by
      unfold cropStep
      split
      · exact ⟨min_le_left _ _, min_le_left _ _, le_max_left _ _, le_max_left _ _⟩
      · exact ⟨le_refl _, le_refl _, le_refl _, le_refl _⟩
    exact ⟨le_trans h1 hstep.1, le_trans h2 hstep.2.1,
      le_trans hstep.2.2.1 h3, le_trans hstep.2.2.2 h4⟩

lemma cropFold_covers (c : Canvas) (l : List (ℕ × ℕ)) (b : CropBounds)
    (p : ℕ × ℕ) (hp : p ∈ l) (ha : 0 < c.alpha p.2 p.1) :
    (l.foldl (cropStep c) b).minX ≤ p.1 ∧ p.1 ≤ (l.foldl (cropStep c) b).maxX ∧
    (l.foldl (cropStep c) b).minY ≤ p.2 ∧ p.2 ≤ (l.foldl (cropStep c) b).maxY := by
  induction l generalizing b with
  | nil => cases hp
  | cons q rest ih =>
    rw [List.foldl_cons]
    rcases List.mem_cons.mp hp with heq | hmem
    · subst heq
      have hstep : (cropStep c b p).minX ≤ p.1 ∧ p.1 ≤ (cropStep c b p).maxX ∧
          (cropStep c b p).minY ≤ p.2 ∧ p.2 ≤ (cropStep c b p).maxY := by
        unfold cropStep
        rw [if_pos ha]
        exact ⟨min_le_right _ _, le_max_right _ _, min_le_right _ _, le_max_right _ _⟩
      obtain ⟨m1, m2, m3, m4⟩ := cropFold_mono c rest (cropStep c b p)
      exact ⟨le_trans m1 hstep.1, le_trans hstep.2.1 m3,
        le_trans m2 hstep.2.2.1, le_trans hstep.2.2.2 m4⟩
    · exact ih (cropStep c b q) hmem

/-- C8 counterexample: the code's crop applies no padding and its threshold
is exactly zero: on the 10×10 canvas whose opaque pixels form the 3×3 block
from (4,4) to (6,6) the emitted image is exactly 3×3, while the padded
bounding rectangle the claim describes has different dimensions for every
plausible padding amount (1, 2 or 3 pixels). -/
theorem cropCanvas_padding_counterexample :
    (cropCanvas exCanvas).width = 3 ∧ (cropCanvas exCanvas).height = 3 ∧
    claimCropDims exCanvas 1 ≠ (3, 3) ∧
    claimCropDims exCanvas 2 ≠ (3, 3) ∧
    claimCropDims exCanvas 3 ≠ (3, 3) := by
  refine ⟨?_, ?_, ?_, ?_, ?_⟩ <;> decide

/-- C8 amended: `cropCanvas` scans for the bounding rectangle of pixels with
alpha strictly above 0 and emits exactly that rectangle with no padding: the
scan bounds cover every opaque pixel; when the scan is non-degenerate the
output is the rectangle's exact dimensions with the pixels shifted by its
origin; when it is degenerate — in particular when every pixel is
transparent, but also when the opaque content spans a single row or column —
the canvas is returned unchanged with its original dimensions. -/
theorem cropCanvas_props (c : Canvas) :
    ((∀ x y, x < c.width → y < c.height → c.alpha y x = 0) → cropCanvas c = c) ∧
    (∀ x y, x < c.width → y < c.height → 0 < c.alpha y x →
      (cropBounds c).minX ≤ x ∧ x ≤ (cropBounds c).maxX ∧
      (cropBounds c).minY ≤ y ∧ y ≤ (cropBounds c).maxY) ∧
    ((cropBounds c).minX < (cropBounds c).maxX →
      (cropBounds c).minY < (cropBounds c).maxY →
      (cropCanvas c).width = (cropBounds c).maxX - (cropBounds c).minX + 1 ∧
      (cropCanvas c).height = (cropBounds c).maxY - (cropBounds c).minY + 1 ∧
      (∀ y x, (cropCanvas c).alpha y x
        = c.alpha (y + (cropBounds c).minY) (x + (cropBounds c).minX))) ∧
    ((cropBounds c).maxX ≤ (cropBounds c).minX ∨
        (cropBounds c).maxY ≤ (cropBounds c).minY →
      cropCanvas c = c) := by
  have hdeg : (cropBounds c).maxX ≤ (cropBounds c).minX ∨
      (cropBounds c).maxY ≤ (cropBounds c).minY → cropCanvas c = c := by
    intro h
    unfold cropCanvas
    rw [if_pos h]
  refine ⟨?_, ?_, ?_, hdeg⟩
  · intro hclear
    apply hdeg
    have hb : cropBounds c = ⟨c.width, c.height, 0, 0⟩ := by
      unfold cropBounds
      apply cropFold_const
      intro p hp
      have hm := pixelCoords_mem_elim c p hp
      exact hclear p.1 p.2 hm.1 hm.2
    rw [hb]
    left
    exact Nat.zero_le _
  · intro x y hx hy ha
    unfold cropBounds
    exact cropFold_covers c (pixelCoords c) ⟨c.width, c.height, 0, 0⟩ (x, y)
      (pixelCoords_mem_intro c x y hx hy) ha
  · intro h1 h2
    unfold cropCanvas
    rw [if_neg]
    · exact ⟨rfl, rfl, fun y x => rfl⟩
    · push_neg
      omega

/-- C8 witness: the amended behavior at concrete canvases — the 3×3 block is
emitted at exactly 3 pixels wide, the covering bounds hold at the opaque
pixel (5, 5), the single-pixel canvas comes back unchanged, and the fully
transparent canvas comes back unchanged. -/
theorem cropCanvas_props_witness :
    (cropCanvas exCanvas).width = (cropBounds exCanvas).maxX - (cropBounds exCanvas).minX + 1 ∧
    (cropBounds exCanvas).minX ≤ 5 ∧
    cropCanvas exCanvasOnePixel = exCanvasOnePixel ∧
    cropCanvas exCanvasClear = exCanvasClear :=
  ⟨((cropCanvas_props exCanvas).2.2.1 (by decide) (by decide)).1,
   ((cropCanvas_props exCanvas).2.1 5 5 (by decide) (by decide) (by decide)).1,
   (cropCanvas_props exCanvasOnePixel).2.2.2 (by decide),
   (cropCanvas_props exCanvasClear).1 (fun x y hx hy => rfl)⟩

namespace Renderer3D

/-- Compass name of a render azimuth. -/
inductive AngleName where
  | ne
  | nw
  | sw
  | se
deriving DecidableEq

/-- The four fixed azimuths with their compass names, in render order. -/
def angleList : List (ℕ × AngleName) :=
  [(0, .ne), (90, .nw), (180, .sw), (270, .se)]

/-- One per-angle result row as assembled by `renderAllAngles`: the angle,
its name and whether that angle's render-and-save succeeded. -/
structure AngleResult where
  angle : ℕ
  angleName : AngleName
  success : Bool
deriving DecidableEq

/-- Whether the per-angle outcome for angle `a` succeeded. -/
def angleOk (outcome : ℕ → Except Unit Unit) (a : ℕ) : Bool :=
  match outcome a with
  | .ok _ => true
  | .error _ => false

/-- The result row recorded for one angle. -/
def mkAngleResult (outcome : ℕ → Except Unit Unit) (an : ℕ × AngleName) :
    AngleResult :=
  match outcome an.1 with
  | .ok _ => ⟨an.1, an.2, true⟩
  | .error _ => ⟨an.1, an.2, false⟩

/-- Modelled from the spec: the browser-side `renderModelAllAngles` is not
under `src/` (only its caller in `3d-renderer.js` is); per the spec it
renders the four angles sequentially and catches each angle's failure
independently — one bad angle does not lose the other three — recording a
success or failure row per angle. -/
def renderModelAllAngles (outcome : ℕ → Except Unit Unit) : List AngleResult :=
  angleList.map (mkAngleResult outcome)

/-- The consolidated per-model metadata document entry. -/
structure ModelMetadata where
  modelName : ℕ
  angles : List (ℕ × AngleName)
deriving DecidableEq

/-- Embeds the metadata preparation of `renderAllAngles`: keep only the
successful rows; one `angles` entry per successful row; no metadata at all
when no row succeeded. -/
def prepareMetadata (modelName : ℕ) (results : List AngleResult) :
    Option ModelMetadata :=
  let successfulResults := results.filter (fun r => r.success)
  if successfulResults.length > 0 then
    some { modelName := modelName
           angles := successfulResults.map (fun r => (r.angle, r.angleName)) }
  else
    none

/-- Embeds `renderAllAngles` for one model: a model-level failure propagates
(the outer catch rethrows), otherwise the per-angle rows and the prepared
metadata are returned. -/
def renderAllAngles (modelName : ℕ)
    (modelOutcome : Except Unit (ℕ → Except Unit Unit)) :
    Except Unit (List AngleResult × Option ModelMetadata) :=
  match modelOutcome with
  | .error e => .error e
  | .ok outcome =>
    let results := renderModelAllAngles outcome
    .ok (results, prepareMetadata modelName results)

/-- Embeds `renderMultipleModels`: process the models sequentially; a
model-level failure is caught and the remaining models are still processed;
each model with metadata contributes one consolidated entry. -/
def renderMultipleModels
    (models : List (ℕ × Except Unit (ℕ → Except Unit Unit))) :
    List (ℕ × ModelMetadata) :=
  models.foldl
    (fun acc m =>
      match renderAllAngles m.1 m.2 with
      | .error _ => acc
      | .ok (_, none) => acc
      | .ok (_, some md) => acc ++ [(m.1, md)])
    []

lemma filter_success_length (outcome : ℕ → Except Unit Unit)
    (l : List (ℕ × AngleName)) :
    ((l.map (mkAngleResult outcome)).filter (fun r => r.success)).length
      = (l.map Prod.fst).countP (angleOk outcome) := by
  induction l with
  | nil => rfl
  | cons an rest ih =>
    simp only [List.map_cons, List.filter_cons, List.countP_cons]
    cases hoc : outcome an.1 with
    | ok u =>
      have h1 : mkAngleResult outcome an = ⟨an.1, an.2, true⟩ := by
        unfold mkAngleResult
        rw [hoc]
      have h2 : angleOk outcome an.1 = true := by
        unfold angleOk
        rw [hoc]
      rw [h1, h2]
      simp [ih]
    | error e =>
      have h1 : mkAngleResult outcome an = ⟨an.1, an.2, false⟩ := by
        unfold mkAngleResult
        rw [hoc]
      have h2 : angleOk outcome an.1 = false := by
        unfold angleOk
        rw [hoc]
      rw [h1, h2]
      simp [ih]

end Renderer3D

/-- C9: in batch rendering — with the browser-side per-angle catch modelled
from the spec — a model all of whose four angle renders failed produces no
metadata; when some angles succeed, the metadata's `angles` array holds
exactly one entry per successful angle (so exactly 3 entries when one of
four fails); the per-model call on a loaded model never rejects; and a
model-level failure is skipped while the remaining models are still
processed, with no global abort. -/
theorem render_batch_error_isolation (name : ℕ)
    (outcome : ℕ → Except Unit Unit) (e : Unit)
    (rest : List (ℕ × Except Unit (ℕ → Except Unit Unit))) :
    ((∀ a ∈ Renderer3D.angleList.map Prod.fst, Renderer3D.angleOk outcome a = false) →
      Renderer3D.prepareMetadata name (Renderer3D.renderModelAllAngles outcome) = none) ∧
    ((∃ a ∈ Renderer3D.angleList.map Prod.fst, Renderer3D.angleOk outcome a = true) →
      ∃ md, Renderer3D.prepareMetadata name (Renderer3D.renderModelAllAngles outcome)
          = some md ∧
        md.angles.length
          = (Renderer3D.angleList.map Prod.fst).countP (Renderer3D.angleOk outcome)) ∧
    (∃ r, Renderer3D.renderAllAngles name (.ok outcome) = .ok r) ∧
    (Renderer3D.renderMultipleModels ((name, .error e) :: rest)
      = Renderer3D.renderMultipleModels rest) := by
  have hlen := Renderer3D.filter_success_length outcome Renderer3D.angleList
  refine ⟨?_, ?_, ⟨_, rfl⟩, rfl⟩
  · intro hall
    unfold Renderer3D.prepareMetadata Renderer3D.renderModelAllAngles
    rw [if_neg]
    have hzero : (Renderer3D.angleList.map Prod.fst).countP (Renderer3D.angleOk outcome)
        = 0 := by
      rw [List.countP_eq_zero]
      intro a ha
      rw [hall a ha]
      exact Bool.false_ne_true
    rw [hlen, hzero]
    omega
  · intro hsome
    obtain ⟨a, ha, hok⟩ := hsome
    have hpos : 0 < (Renderer3D.angleList.map Prod.fst).countP (Renderer3D.angleOk outcome) := by
      rw [List.countP_pos_iff]
      exact ⟨a, ha, by rw [hok]⟩
    unfold Renderer3D.prepareMetadata Renderer3D.renderModelAllAngles
    rw [if_pos]
    · refine ⟨_, rfl, ?_⟩
      rw [List.length_map]
      exact hlen
    · rw [hlen]
      omega

/-- The per-angle outcome of end-to-end scenario 5: the 90° angle fails
during texture load, the other three succeed. -/
def exOutcome : ℕ → Except Unit Unit :=
  fun a => if a = 90 then .error () else .ok ()

/-- C9 witness: with the 90° render failing and the other three succeeding,
the metadata holds exactly 3 angle entries, and a failed model ahead in the
batch does not prevent this model from being processed. -/
theorem render_batch_error_isolation_witness :
    (∃ md, Renderer3D.prepareMetadata 7 (Renderer3D.renderModelAllAngles exOutcome)
        = some md ∧
      md.angles.length
        = (Renderer3D.angleList.map Prod.fst).countP (Renderer3D.angleOk exOutcome)) ∧
    (Renderer3D.renderMultipleModels ((3, .error ()) :: [(7, .ok exOutcome)])
      = Renderer3D.renderMultipleModels [(7, .ok exOutcome)]) ∧
    (Renderer3D.angleList.map Prod.fst).countP (Renderer3D.angleOk exOutcome) = 3 :=
  ⟨(render_batch_error_isolation 7 exOutcome () []).2.1
      ⟨0, by decide, by decide⟩,
   (render_batch_error_isolation 3 exOutcome () [(7, .ok exOutcome)]).2.2.2,
   by decide⟩

namespace IsometricRenderer

/-- A tile texture sliced from the sprite sheet (abstract identity). -/
structure Texture where
  id : ℕ
deriving DecidableEq

/-- The state of a `TileSprite` as the renderer tracks it. -/
structure TileSprite where
  texture : Texture
  tile : Tile
  northCornerHeight : ℚ
deriving DecidableEq

/-- The `IsometricRenderer` state the claim concerns: the created tile
textures, the coordinate-keyed sprite map, and the sprites destroyed so
far (destruction is a side effect on the sprite object; we record it). -/
structure RendererState where
  tileTextures : List Texture
  tileSprites : List ((ℤ × ℤ) × TileSprite)
  destroyed : List TileSprite
deriving DecidableEq

/-- JS array indexing `arr[i]` with a number index: an element only when the
index is a non-negative integer below the length, `undefined` otherwise. -/
def jsIndex {α : Type} (l : List α) (q : ℚ) : Option α :=
  if 0 ≤ q ∧ q.den = 1 then l[q.num.toNat]? else none

/-- JS `Map.get` on the sprite map. -/
def spriteGet (m : List ((ℤ × ℤ) × TileSprite)) (k : ℤ × ℤ) : Option TileSprite :=
  (m.find? (fun e => e.1 = k)).map (fun e => e.2)

/-- JS `Map.set` on the sprite map. -/
def spriteSet (m : List ((ℤ × ℤ) × TileSprite)) (k : ℤ × ℤ) (s : TileSprite) :
    List ((ℤ × ℤ) × TileSprite) :=
  if m.any (fun e => e.1 = k) then
    m.map (fun e => if e.1 = k then (k, s) else e)
  else
    m ++ [(k, s)]

/-- JS `Map.delete` on the sprite map. -/
def spriteDelete (m : List ((ℤ × ℤ) × TileSprite)) (k : ℤ × ℤ) :
    List ((ℤ × ℤ) × TileSprite) :=
  m.filter (fun e => ¬ e.1 = k)

/-- Embeds `IsometricRenderer.removeTile`: when a sprite exists at the
coordinate, remove it from the map, remove it from the display list and
destroy it. -/
def removeTile (st : RendererState) (x y : ℤ) : RendererState :=
  match spriteGet st.tileSprites (x, y) with
  | some sprite =>
    { st with
      tileSprites := spriteDelete st.tileSprites (x, y)
      destroyed := st.destroyed ++ [sprite] }
  | none => st

/-- Embeds `IsometricRenderer.renderTile`: remove any existing sprite at the
tile's coordinate, then look the tile type up in the created textures; when
the lookup yields nothing the function returns with no sprite created. -/
def renderTile (st : RendererState) (tile : Tile) (northCornerHeight : ℚ) :
    RendererState :=
  let st1 := removeTile st tile.x tile.y
  match jsIndex st1.tileTextures tile.type with
  | none => st1
  | some texture =>
    { st1 with
      tileSprites := spriteSet st1.tileSprites (tile.x, tile.y)
        ⟨texture, tile, northCornerHeight⟩ }

lemma removeTile_tileTextures (st : RendererState) (x y : ℤ) :
    (removeTile st x y).tileTextures = st.tileTextures := by
  unfold removeTile
  cases spriteGet st.tileSprites (x, y) <;> rfl

lemma spriteGet_delete (m : List ((ℤ × ℤ) × TileSprite)) (k : ℤ × ℤ) :
    spriteGet (spriteDelete m k) k = none := by
  unfold spriteGet spriteDelete
  rw [List.find?_eq_none.mpr]
  · rfl
  · intro e he
    have hmem := List.of_mem_filter he
    simp only [decide_not, Bool.not_eq_eq_eq_not, Bool.not_true,
      decide_eq_false_iff_not] at hmem
    simp [hmem]

lemma removeTile_spriteGet (st : RendererState) (x y : ℤ) :
    spriteGet (removeTile st x y).tileSprites (x, y) = none := by
  unfold removeTile
  cases hg : spriteGet st.tileSprites (x, y) with
  | none => exact hg
  | some sprite => exact spriteGet_delete st.tileSprites (x, y)

lemma removeTile_destroys (st : RendererState) (x y : ℤ) (sp : TileSprite)
    (hsp : spriteGet st.tileSprites (x, y) = some sp) :
    sp ∈ (removeTile st x y).destroyed := by
  unfold removeTile
  rw [hsp]
  exact List.mem_append_right _ (List.mem_singleton_self sp)

end IsometricRenderer

/-- C10: when `renderTile` is called with a tile whose type does not index a
created tile texture — a type outside `[0, textures.length)`, a non-integer
type, or a renderer whose texture list is empty because it was never
initialized — it still removes and destroys any sprite previously at
`(tile.x, tile.y)` and adds no replacement: afterwards that coordinate holds
no sprite at all. The last conjunct shows each of those three conditions
does make the texture lookup miss. -/
theorem renderTile_missing_texture (st : IsometricRenderer.RendererState)
    (tile : Tile) (h : ℚ)
    (htex : IsometricRenderer.jsIndex st.tileTextures tile.type = none) :
    IsometricRenderer.spriteGet ((IsometricRenderer.renderTile st tile h).tileSprites)
        (tile.x, tile.y) = none ∧
    (∀ sp, IsometricRenderer.spriteGet st.tileSprites (tile.x, tile.y) = some sp →
      sp ∈ (IsometricRenderer.renderTile st tile h).destroyed) ∧
    (tile.type < 0 ∨ (st.tileTextures.length : ℚ) ≤ tile.type ∨ tile.type.den ≠ 1 →
      IsometricRenderer.jsIndex st.tileTextures tile.type = none) := by
  have hre : IsometricRenderer.renderTile st tile h
      = IsometricRenderer.removeTile st tile.x tile.y := by
    simp only [IsometricRenderer.renderTile, IsometricRenderer.removeTile_tileTextures, htex]
  refine ⟨?_, ?_, ?_⟩
  · rw [hre]
    exact IsometricRenderer.removeTile_spriteGet st tile.x tile.y
  · intro sp hsp
    rw [hre]
    exact IsometricRenderer.removeTile_destroys st tile.x tile.y sp hsp
  · intro hcond
    unfold IsometricRenderer.jsIndex
    rcases hcond with hneg | hbig | hden
    · rw [if_neg]
      intro hc
      exact absurd hc.1 (not_le.mpr hneg)
    · split
      · next hc =>
        apply List.getElem?_eq_none
        have hq : (tile.type.num : ℚ) = tile.type * (tile.type.den : ℚ) := by
          rw [Rat.mul_den_eq_num]
        have hden1 : tile.type.den = 1 := hc.2
        have hnum : (tile.type.num : ℚ) = tile.type := by
          rw [hq, hden1]
          push_cast
          ring
        have hlen : (st.tileTextures.length : ℚ) ≤ (tile.type.num : ℚ) := by
          rw [hnum]
          exact hbig
        have hlen2 : (st.tileTextures.length : ℤ) ≤ tile.type.num := by
          exact_mod_cast hlen
        omega
      · rfl
    · rw [if_neg]
      intro hc
      exact hden hc.2

/-- C10 witness: an uninitialized renderer (no textures) holding one sprite
at (0, 0): rendering a tile of type 5 at (0, 0) leaves no sprite there and
the old sprite destroyed, and type 5 misses the empty texture list. -/
theorem renderTile_missing_texture_witness :
    IsometricRenderer.spriteGet ((IsometricRenderer.renderTile
        ⟨[], [((0, 0), ⟨⟨0⟩, ⟨0, 0, 0, 0⟩, 0⟩)], []⟩ ⟨5, 0, 0, 0⟩ 0).tileSprites)
        ((0 : ℤ), (0 : ℤ)) = none ∧
    (⟨⟨0⟩, ⟨0, 0, 0, 0⟩, 0⟩ : IsometricRenderer.TileSprite)
      ∈ (IsometricRenderer.renderTile
        ⟨[], [((0, 0), ⟨⟨0⟩, ⟨0, 0, 0, 0⟩, 0⟩)], []⟩ ⟨5, 0, 0, 0⟩ 0).destroyed :=
  ⟨(renderTile_missing_texture ⟨[], [((0, 0), ⟨⟨0⟩, ⟨0, 0, 0, 0⟩, 0⟩)], []⟩
      ⟨5, 0, 0, 0⟩ 0 (by decide)).1,
   (renderTile_missing_texture ⟨[], [((0, 0), ⟨⟨0⟩, ⟨0, 0, 0, 0⟩, 0⟩)], []⟩
      ⟨5, 0, 0, 0⟩ 0 (by decide)).2.1 ⟨⟨0⟩, ⟨0, 0, 0, 0⟩, 0⟩ (by decide)⟩
